import Mathlib

/-!
# Verification of the meeting signalling relay

Shallow embedding of the WebSocket meeting relay:

* `meetings/consumers.py` — `MeetingConsumer` (`connect`, `disconnect`,
  `receive`, the group-event handlers, `_check_access`,
  `_get_active_participants`);
* `meetings/views.py` — `MeetingEndView.post`;
* `meetingapp/middleware.py` — the shape of `scope["user"]` it guarantees
  (a real user or `AnonymousUser`).

The channel layer (`group_add` / `group_discard` / `group_send`) is modelled
as an explicit registry (`Reg`) mapping group names to member channel lists,
and every consumer method is embedded as a pure function from its inputs to
the list of side effects it performs, in program order.
-/

namespace MeetingRelay

/-- JSON values as produced by `json.loads`; numbers are modelled as
integers (all numeric fields in the protocol are user ids). -/
inductive Json where
  | null : Json
  | bool (b : Bool) : Json
  | num (n : Int) : Json
  | str (s : String) : Json
  | arr (xs : List Json) : Json
  | obj (fields : List (String × Json)) : Json

mutual

/-- Decidable equality for `Json` (hand-written: the automatic derivation
does not handle the nesting through `List`). -/
def Json.decEq : (a b : Json) → Decidable (a = b)
  | .null, .null => .isTrue rfl
  | .bool x, .bool y =>
      if h : x = y then .isTrue (by rw [h]) else .isFalse (by simp [h])
  | .num x, .num y =>
      if h : x = y then .isTrue (by rw [h]) else .isFalse (by simp [h])
  | .str x, .str y =>
      if h : x = y then .isTrue (by rw [h]) else .isFalse (by simp [h])
  | .arr xs, .arr ys =>
      match Json.decEqList xs ys with
      | .isTrue h => .isTrue (by rw [h])
      | .isFalse h => .isFalse (by simpa using h)
  | .obj fs, .obj gs =>
      match Json.decEqObj fs gs with
      | .isTrue h => .isTrue (by rw [h])
      | .isFalse h => .isFalse (by simpa using h)
  | .null, .bool _ => .isFalse nofun
  | .null, .num _ => .isFalse nofun
  | .null, .str _ => .isFalse nofun
  | .null, .arr _ => .isFalse nofun
  | .null, .obj _ => .isFalse nofun
  | .bool _, .null => .isFalse nofun
  | .bool _, .num _ => .isFalse nofun
  | .bool _, .str _ => .isFalse nofun
  | .bool _, .arr _ => .isFalse nofun
  | .bool _, .obj _ => .isFalse nofun
  | .num _, .null => .isFalse nofun
  | .num _, .bool _ => .isFalse nofun
  | .num _, .str _ => .isFalse nofun
  | .num _, .arr _ => .isFalse nofun
  | .num _, .obj _ => .isFalse nofun
  | .str _, .null => .isFalse nofun
  | .str _, .bool _ => .isFalse nofun
  | .str _, .num _ => .isFalse nofun
  | .str _, .arr _ => .isFalse nofun
  | .str _, .obj _ => .isFalse nofun
  | .arr _, .null => .isFalse nofun
  | .arr _, .bool _ => .isFalse nofun
  | .arr _, .num _ => .isFalse nofun
  | .arr _, .str _ => .isFalse nofun
  | .arr _, .obj _ => .isFalse nofun
  | .obj _, .null => .isFalse nofun
  | .obj _, .bool _ => .isFalse nofun
  | .obj _, .num _ => .isFalse nofun
  | .obj _, .str _ => .isFalse nofun
  | .obj _, .arr _ => .isFalse nofun

/-- Decidable equality for lists of `Json`. -/
def Json.decEqList : (a b : List Json) → Decidable (a = b)
  | [], [] => .isTrue rfl
  | [], _ :: _ => .isFalse nofun
  | _ :: _, [] => .isFalse nofun
  | x :: xs, y :: ys =>
      match Json.decEq x y, Json.decEqList xs ys with
      | .isTrue h1, .isTrue h2 => .isTrue (by rw [h1, h2])
      | .isFalse h1, _ => .isFalse (by simp [h1])
      | _, .isFalse h2 => .isFalse (by simp [h2])

/-- Decidable equality for JSON object field lists. -/
def Json.decEqObj : (a b : List (String × Json)) → Decidable (a = b)
  | [], [] => .isTrue rfl
  | [], _ :: _ => .isFalse nofun
  | _ :: _, [] => .isFalse nofun
  | (k1, v1) :: xs, (k2, v2) :: ys =>
      if hk : k1 = k2 then
        match Json.decEq v1 v2, Json.decEqObj xs ys with
        | .isTrue h1, .isTrue h2 => .isTrue (by rw [hk, h1, h2])
        | .isFalse h1, _ => .isFalse (by simp [h1])
        | _, .isFalse h2 => .isFalse (by simp [h2])
      else .isFalse (by simp [hk])

end

instance : DecidableEq Json := Json.decEq

/-- Python truthiness (`if not x`) of a parsed JSON value: `None`, `False`,
`0`, `""`, `[]` and `\x7b\x7d` are falsy, everything else truthy. -/
def pyTruthy : Json → Bool
  | .null => false
  | .bool b => b
  | .num n => n != 0
  | .str s => !s.isEmpty
  | .arr xs => !xs.isEmpty
  | .obj fs => !fs.isEmpty

/-- Python `str()` of a parsed JSON value, as used by `str(data.get(...))`
and the f-string `f"user_\x7bto_user_id\x7d"`.  Scalars are rendered exactly
(`None`, `True`/`False`, decimal integers, the string itself); the rendering
of containers is abbreviated — no claim inspects it beyond string identity. -/
def pyStr : Json → String
  | .null => "None"
  | .bool true => "True"
  | .bool false => "False"
  | .num n => toString n
  | .str s => s
  | .arr _ => "[...]"
  | .obj _ => "\x7b...\x7d"

/-- Python `str.strip()`: remove leading and trailing whitespace
(modelled with `Char.isWhitespace`, which covers the ASCII whitespace
Python strips). -/
def pyStrip (s : String) : String :=
  ⟨((s.data.dropWhile Char.isWhitespace).reverse.dropWhile Char.isWhitespace).reverse⟩

/-- Python `s[:n]`: the first `n` code points (Python slices strings by
code point, as does `List.take` on `String.data`). -/
def pySlice (s : String) (n : Nat) : String :=
  ⟨s.data.take n⟩

/-- `dict.get(k)` on a parsed JSON object (parsed dicts have unique keys,
so first-match association lookup coincides with dict lookup). -/
def jsonGet (fields : List (String × Json)) (k : String) : Option Json :=
  (fields.find? (fun p => p.1 = k)).map (·.2)

/-- An authenticated Django user (`self.scope["user"]` when a valid JWT was
presented): primary key and username. -/
structure User where
  id : Int
  username : String
deriving DecidableEq

/-- The value the JWT middleware puts in `scope["user"]`: either
`AnonymousUser()` (no/invalid token; its `id` is `None` and its `username`
is `""`) or a real `User`. -/
inductive ScopeUser where
  | anon : ScopeUser
  | auth (u : User) : ScopeUser
deriving DecidableEq

/-- `self.user.id` — `None` for `AnonymousUser`. -/
def ScopeUser.uid : ScopeUser → Option Int
  | .anon => none
  | .auth u => some u.id

/-- `self.user.username` — `""` for `AnonymousUser`. -/
def ScopeUser.uname : ScopeUser → String
  | .anon => ""
  | .auth u => u.username

/-- A row of the `Meeting` table (the fields the relay reads). -/
structure MeetingRow where
  id : String
  hostId : Int
  isActive : Bool
deriving DecidableEq

/-- A row of the `Participant` table joined with its user
(the fields the relay reads). -/
structure ParticipantRow where
  meetingId : String
  userId : Int
  username : String
  isActive : Bool
deriving DecidableEq

/-- The database state the relay consults. -/
structure DB where
  meetings : List MeetingRow
  participants : List ParticipantRow
deriving DecidableEq

/-- `MeetingConsumer._check_access`: the meeting must exist and be active;
the user must be its host or an active participant of it. -/
def checkAccess (db : DB) (meetingId : String) (u : User) : Bool :=
  match db.meetings.find? (fun m => m.id = meetingId && m.isActive) with
  | none => false
  | some m =>
      m.hostId = u.id ||
        db.participants.any
          (fun p => p.meetingId = meetingId && p.userId = u.id && p.isActive)

/-- `MeetingConsumer._get_active_participants`: all active participants of
the meeting other than the user, as `(user_id, username)` pairs. -/
def getActiveParticipants (db : DB) (meetingId : String) (uid : Int) :
    List (Int × String) :=
  (db.participants.filter
      (fun p => p.meetingId = meetingId && p.isActive && p.userId != uid)).map
    (fun p => (p.userId, p.username))

/-- Channel-layer events (`group_send` payloads); the `type` key of the
event dict selects the handler, the other keys are the constructor fields.
`participantLeft` carries an optional user id because `disconnect` reads
`self.user.id`, which is `None` for `AnonymousUser`. -/
inductive Event where
  | participantJoined (userId : Int) (username : String) : Event
  | participantLeft (userId : Option Int) (username : String) : Event
  | chatMessage (userId : Int) (username : String) (message : String) : Event
  | handRaise (userId : Int) (username : String) (raised : Bool) : Event
  | webrtcRelay (fromUserId : Int) (fromUsername : String) (signal : Json) : Event
  | meetingEnded : Event
deriving DecidableEq

/-- One side effect of a consumer method, in program order. -/
inductive Effect where
  | close (code : Option Nat) : Effect
  | acceptConn : Effect
  | groupAdd (group : String) : Effect
  | groupDiscard (group : String) : Effect
  | sendSelf (frame : Json) : Effect
  | groupSend (group : String) (event : Event) : Effect
deriving DecidableEq

/-- `Option Int` to JSON (`None` → `null`). -/
def jsonOfOptInt : Option Int → Json
  | none => .null
  | some n => .num n

/-- The `room_state` frame sent to a fresh joiner. -/
def roomStateFrame (parts : List (Int × String)) : Json :=
  .obj [("type", .str "room_state"),
        ("participants",
          .arr (parts.map (fun p =>
            .obj [("user_id", .num p.1), ("username", .str p.2)])))]

/-- The `error` frame (`MeetingConsumer._send_error`). -/
def errorFrame (message : String) : Json :=
  .obj [("type", .str "error"), ("message", .str message)]

/-- What a member's consumer writes to its WebSocket client when a
channel-layer event reaches it. -/
inductive ClientAction where
  | sendFrame (frame : Json) : ClientAction
  | closeConn : ClientAction
deriving DecidableEq

/-- The group-event handlers of `MeetingConsumer`
(`participant_joined` … `meeting_ended`): the outbound frame(s) each event
produces on a member's connection.  `meeting_ended` also closes it. -/
def handleEvent : Event → List ClientAction
  | .participantJoined uid un =>
      [.sendFrame (.obj [("type", .str "participant_joined"),
                         ("user_id", .num uid), ("username", .str un)])]
  | .participantLeft uid un =>
      [.sendFrame (.obj [("type", .str "participant_left"),
                         ("user_id", jsonOfOptInt uid), ("username", .str un)])]
  | .chatMessage uid un msg =>
      [.sendFrame (.obj [("type", .str "chat"),
                         ("user_id", .num uid), ("username", .str un),
                         ("message", .str msg)])]
  | .handRaise uid un raised =>
      [.sendFrame (.obj [("type", .str "hand_raise"),
                         ("user_id", .num uid), ("username", .str un),
                         ("raised", .bool raised)])]
  | .webrtcRelay fid fn sig =>
      [.sendFrame (.obj [("type", .str "webrtc_signal"),
                         ("from", .num fid), ("from_username", .str fn),
                         ("signal", sig)])]
  | .meetingEnded =>
      [.sendFrame (.obj [("type", .str "meeting_ended")]), .closeConn]

/-! ## The channel layer

`Reg` models the channel layer's group registry: group name → the channels
currently added to that group (insertion order, as in
`InMemoryChannelLayer.groups`). -/

/-- Group registry state: association list from group name to member
channels. -/
abbrev Reg := List (String × List String)

/-- The channels currently in group `g`. -/
def regMembers (G : Reg) (g : String) : List String :=
  match G.find? (fun p => p.1 = g) with
  | some p => p.2
  | none => []

/-- `group_add(g, c)`: add channel `c` to group `g` (no-op if already a
member). -/
def regAdd (G : Reg) (g c : String) : Reg :=
  match G with
  | [] => [(g, [c])]
  | (g', cs) :: rest =>
      if g' = g then (g', if c ∈ cs then cs else cs ++ [c]) :: rest
      else (g', cs) :: regAdd rest g c

/-- `group_discard(g, c)`: remove channel `c` from group `g` (no-op if
absent). -/
def regDiscard (G : Reg) (g c : String) : Reg :=
  G.map (fun p => if p.1 = g then (p.1, p.2.erase c) else p)

/-- Applying one effect of the session owning channel `c` to the registry.
Only `group_add` / `group_discard` change it. -/
def applyEffect (c : String) (G : Reg) : Effect → Reg
  | .groupAdd g => regAdd G g c
  | .groupDiscard g => regDiscard G g c
  | _ => G

/-- Run the effect list of the session owning channel `c` against registry
`G`, in program order.  Returns the final registry and the delivery trace:
which client action reaches which channel, in order.  A `group_send`
delivers to every member of the group at the instant of the call (each
member's consumer runs the matching event handler); `send` delivers to the
session's own channel; `close` closes the session's own connection. -/
def runEffects (c : String) (G : Reg) :
    List Effect → Reg × List (String × ClientAction)
  | [] => (G, [])
  | e :: rest =>
      let G' := applyEffect c G e
      let del : List (String × ClientAction) :=
        match e with
        | .groupSend g ev =>
            (regMembers G' g).flatMap (fun m => (handleEvent ev).map ((m, ·)))
        | .sendSelf f => [(c, .sendFrame f)]
        | .close _ => [(c, .closeConn)]
        | _ => []
      let r := runEffects c G' rest
      (r.1, del ++ r.2)

/-- The client actions a given channel receives from a delivery trace, in
order. -/
def deliveredTo (ch : String) (trace : List (String × ClientAction)) :
    List ClientAction :=
  (trace.filter (fun d => d.1 = ch)).map (·.2)

/-! ## The consumer's lifecycle methods -/

/-- The attributes `MeetingConsumer.connect` sets on the consumer instance:
`meeting_id`, `group_name` and `user` are assigned unconditionally (in that
order, before any check); `user_group` only after both checks pass. -/
structure Session where
  meetingId : String
  groupName : String
  user : ScopeUser
  userGroup : Option String
deriving DecidableEq

/-- `MeetingConsumer.connect`: resolves the scope user, rejects
unauthenticated connections with close code 4001 and access-check failures
with 4003; otherwise joins the room group and the personal group, accepts,
sends `room_state` to the new session, and broadcasts
`participant.joined` to the room group.  Returns the resulting instance
state and the effect list in program order. -/
def connect (db : DB) (meetingId : String) (scopeUser : ScopeUser) :
    Session × List Effect :=
  let groupName := "meeting_" ++ meetingId
  match scopeUser with
  | .anon =>
      (⟨meetingId, groupName, .anon, none⟩, [.close (some 4001)])
  | .auth u =>
      if ¬checkAccess db meetingId u then
        (⟨meetingId, groupName, .auth u, none⟩, [.close (some 4003)])
      else
        let userGroup := "user_" ++ toString u.id
        (⟨meetingId, groupName, .auth u, some userGroup⟩,
         [.groupAdd groupName,
          .groupAdd userGroup,
          .acceptConn,
          .sendSelf (roomStateFrame (getActiveParticipants db meetingId u.id)),
          .groupSend groupName (.participantJoined u.id u.username)])

/-- `MeetingConsumer.disconnect`: broadcasts `participant.left` to the room
group (reading `self.user.id` / `self.user.username`, which are `None` and
`""` for `AnonymousUser`), discards the room group membership, and — only
if the `user_group` attribute was ever set — discards the personal group
membership.  (The `hasattr(self, "group_name")` guard is always true for a
session produced by `connect`, which assigns `group_name` first.) -/
def disconnect (s : Session) : List Effect :=
  [.groupSend s.groupName (.participantLeft s.user.uid s.user.uname),
   .groupDiscard s.groupName] ++
    (match s.userGroup with
     | some g => [.groupDiscard g]
     | none => [])

/-- `MeetingConsumer.receive` on a frame that parsed to a JSON object
`d` (the dispatch chain on `data.get("type")`), for an accepted session of
user `u` whose room group is `g`:

* `"chat"` — `str(data.get("message", "")).strip()[:500]`; dropped if
  empty, else broadcast `chat.message` to the room group with the
  session's own identity;
* `"hand_raise"` — broadcast `hand.raise` with
  `bool(data.get("raised", False))`;
* `"webrtc_signal"` — if `data.get("to")` is falsy, dropped; else
  `group_send` a `webrtc.relay` to the personal group
  `"user_" ++ str(to)`, carrying the session's identity and
  `data.get("signal")` unmodified;
* any other value of the `type` key (including a missing or non-string
  one) falls off the end of the `if`/`elif` chain: no effect at all. -/
def receiveObj (u : User) (g : String) (d : List (String × Json)) :
    List Effect :=
  match jsonGet d "type" with
  | some (.str t) =>
      if t = "chat" then
        let message := pySlice (pyStrip (pyStr ((jsonGet d "message").getD (.str "")))) 500
        if message = "" then []
        else [.groupSend g (.chatMessage u.id u.username message)]
      else if t = "hand_raise" then
        [.groupSend g
          (.handRaise u.id u.username
            (pyTruthy ((jsonGet d "raised").getD (.bool false))))]
      else if t = "webrtc_signal" then
        match jsonGet d "to" with
        | none => []
        | some toVal =>
            if ¬pyTruthy toVal then []
            else
              [.groupSend ("user_" ++ pyStr toVal)
                (.webrtcRelay u.id u.username ((jsonGet d "signal").getD .null))]
      else []
  | _ => []

/-- An inbound WebSocket text message, as seen after the `json.loads`
attempt: either unparseable, or a parsed JSON object with the given
fields. -/
inductive Inbound where
  | badJson : Inbound
  | objFrame (fields : List (String × Json)) : Inbound
deriving DecidableEq

/-- `MeetingConsumer.receive`: a `json.JSONDecodeError` is answered with
`_send_error("invalid JSON")` on this session only; a parsed object goes
through the dispatch chain `receiveObj`. -/
def receive (u : User) (g : String) : Inbound → List Effect
  | .badJson => [.sendSelf (errorFrame "invalid JSON")]
  | .objFrame d => receiveObj u g d

/-! ## `MeetingEndView.post` (`meetings/views.py`) -/

/-- The outcome of `MeetingEndView.post`: the database afterwards, the
channel-layer effects performed (the source performs none — it never
touches the channel layer), and the HTTP status. -/
structure EndResult where
  db : DB
  effects : List Effect
  status : Nat
deriving DecidableEq

/-- `MeetingEndView.post`: requires a meeting with this id hosted by the
requester (404 otherwise) that is still active (400 otherwise); then marks
the meeting inactive and deactivates its active participants.  All updates
are database-only: the view performs no channel-layer operation. -/
def meetingEndPost (db : DB) (requesterId : Int) (meetingId : String) :
    EndResult :=
  match db.meetings.find? (fun m => m.id = meetingId && m.hostId = requesterId) with
  | none => ⟨db, [], 404⟩
  | some m =>
      if ¬m.isActive then ⟨db, [], 400⟩
      else
        ⟨{ meetings :=
             db.meetings.map
               (fun mm => if mm.id = meetingId then { mm with isActive := false } else mm),
           participants :=
             db.participants.map
               (fun p =>
                 if p.meetingId = meetingId && p.isActive then
                   { p with isActive := false }
                 else p) },
         [], 200⟩

/-! ## Registry lemmas -/

theorem regMembers_cons (g' : String) (cs : List String) (rest : Reg) (g : String) :
    regMembers ((g', cs) :: rest) g = if g' = g then cs else regMembers rest g := by
  by_cases h : g' = g <;> simp [regMembers, List.find?, h]

theorem exists_entry_of_mem_regMembers {G : Reg} {g x : String}
    (h : x ∈ regMembers G g) : ∃ l, (g, l) ∈ G ∧ x ∈ l := by
  unfold regMembers at h
  cases hf : G.find? (fun p => p.1 = g) with
  | none => rw [hf] at h; simp at h
  | some p =>
      rw [hf] at h
      have hmem := List.mem_of_find?_eq_some hf
      have hkey : p.1 = g := by simpa using List.find?_some hf
      exact ⟨p.2, by rw [← hkey]; exact hmem, h⟩

theorem regAdd_cons (k : String) (cs : List String) (rest : Reg) (g c : String) :
    regAdd ((k, cs) :: rest) g c =
      if k = g then (k, if c ∈ cs then cs else cs ++ [c]) :: rest
      else (k, cs) :: regAdd rest g c := by
  simp [regAdd]

theorem regDiscard_cons (k : String) (cs : List String) (rest : Reg) (g c : String) :
    regDiscard ((k, cs) :: rest) g c =
      (if k = g then (k, cs.erase c) else (k, cs)) :: regDiscard rest g c := by
  by_cases h : k = g <;> simp [regDiscard, h]

/-- Full characterization of `regAdd` through `regMembers`. -/
theorem regMembers_regAdd (G : Reg) (g c g' : String) :
    regMembers (regAdd G g c) g' =
      if g' = g then
        (if c ∈ regMembers G g then regMembers G g else regMembers G g ++ [c])
      else regMembers G g' := by
  induction G with
  | nil =>
      by_cases h : g' = g
      · subst h
        simp [regAdd, regMembers_cons, regMembers, List.find?]
      · have h' : ¬(g = g') := fun hh => h hh.symm
        simp [regAdd, regMembers_cons, regMembers, List.find?, h, h']
  | cons p rest ih =>
      obtain ⟨k, cs⟩ := p
      rw [regAdd_cons]
      by_cases hk : k = g
      · subst hk
        by_cases hg : g' = k
        · subst hg
          simp [regMembers_cons]
        · have hg2 : ¬k = g' := fun hh => hg hh.symm
          simp [regMembers_cons, hg, hg2]
      · by_cases hg : g' = k
        · subst hg
          simp [regMembers_cons, hk]
        · have hg2 : ¬k = g' := fun hh => hg hh.symm
          simp [regMembers_cons, hk, hg2, ih]

/-- Full characterization of `regDiscard` through `regMembers`. -/
theorem regMembers_regDiscard (G : Reg) (g c g' : String) :
    regMembers (regDiscard G g c) g' =
      if g' = g then (regMembers G g').erase c else regMembers G g' := by
  induction G with
  | nil => by_cases h : g' = g <;> simp [regDiscard, regMembers, List.find?, h]
  | cons p rest ih =>
      obtain ⟨k, cs⟩ := p
      rw [regDiscard_cons]
      by_cases hk : k = g
      · subst hk
        by_cases hg : g' = k
        · subst hg
          simp [regMembers_cons]
        · have hg2 : ¬k = g' := fun hh => hg hh.symm
          simp [regMembers_cons, hg, hg2, ih]
      · by_cases hg : g' = k
        · subst hg
          have hg2 : ¬g' = g := fun hh => hk hh
          simp [regMembers_cons, hk, hg2]
        · have hg2 : ¬k = g' := fun hh => hg hh.symm
          simp [regMembers_cons, hk, hg2, ih]

theorem self_mem_regAdd (G : Reg) (g c : String) :
    c ∈ regMembers (regAdd G g c) g := by
  rw [regMembers_regAdd, if_pos rfl]
  split
  · assumption
  · exact List.mem_append_right _ (List.mem_singleton.mpr rfl)

theorem mem_regAdd_of_mem {G : Reg} {g' x : String}
    (h : x ∈ regMembers G g') (g c : String) :
    x ∈ regMembers (regAdd G g c) g' := by
  rw [regMembers_regAdd]
  by_cases hg : g' = g
  · subst hg
    rw [if_pos rfl]
    split
    · exact h
    · exact List.mem_append_left _ h
  · rwa [if_neg hg]

theorem regMembers_regAdd_self (G : Reg) (g c : String)
    (h : c ∉ regMembers G g) :
    regMembers (regAdd G g c) g = regMembers G g ++ [c] := by
  rw [regMembers_regAdd, if_pos rfl, if_neg h]

theorem regMembers_regAdd_ne (G : Reg) (g c g' : String) (h : g' ≠ g) :
    regMembers (regAdd G g c) g' = regMembers G g' := by
  rw [regMembers_regAdd, if_neg h]

theorem nodup_regMembers {G : Reg} (h : ∀ p ∈ G, p.2.Nodup) (g : String) :
    (regMembers G g).Nodup := by
  unfold regMembers
  cases hf : G.find? (fun p => p.1 = g) with
  | none => simp
  | some p => exact h p (List.mem_of_find?_eq_some hf)

/-- Room group names and personal group names never collide: the former
start with `"meeting_"`, the latter with `"user_"`. -/
theorem meeting_group_ne_user_group (a b : String) :
    "meeting_" ++ a ≠ "user_" ++ b := by
  intro h
  have hd := congrArg String.data h
  rw [String.data_append, String.data_append] at hd
  have h1 : "meeting_".data = ['m', 'e', 'e', 't', 'i', 'n', 'g', '_'] := rfl
  have h2 : "user_".data = ['u', 's', 'e', 'r', '_'] := rfl
  rw [h1, h2] at hd
  simp at hd

/-- Two personal group names coincide exactly when the rendered identities
coincide. -/
theorem user_group_inj {a b : String} (h : "user_" ++ a = "user_" ++ b) :
    a = b := by
  have hd := congrArg String.data h
  rw [String.data_append, String.data_append] at hd
  exact String.ext (List.append_cancel_left hd)

/-! ## A concrete scenario

Alice (user id 3) hosts the active meeting `m1`; Bob (user id 4) is an
active participant.  `demoReg` is the registry after both have connected
(Alice on channel `chA`, Bob on channel `chB`). -/

def aliceU : User := ⟨3, "alice"⟩

def bobU : User := ⟨4, "bob"⟩

def demoDB : DB :=
  ⟨[⟨"m1", 3, true⟩], [⟨"m1", 3, "alice", true⟩, ⟨"m1", 4, "bob", true⟩]⟩

def demoReg : Reg :=
  [("meeting_m1", ["chA", "chB"]), ("user_3", ["chA"]), ("user_4", ["chB"])]

/-! ## Claims -/

/-- Claim C1: the spec requires host-initiated meeting end to broadcast a
`meeting_ended` frame to the room group and force-close every session in
it, and `MeetingConsumer` even has the matching (documented) handler — but
`MeetingEndView.post` only flips database flags and never touches the
channel layer, so no session receives `meeting_ended` and no session is
closed or removed from any group: the effect list is empty on every path,
and running it changes no registry and delivers nothing. -/
theorem meetingEndPost_no_channel_effects (db : DB) (requesterId : Int)
    (meetingId : String) (c : String) (G : Reg) :
    (meetingEndPost db requesterId meetingId).effects = [] ∧
    runEffects c G (meetingEndPost db requesterId meetingId).effects = (G, []) := by
  have h : (meetingEndPost db requesterId meetingId).effects = [] := by
    unfold meetingEndPost
    split
    · rfl
    · split <;> rfl
  exact ⟨h, by rw [h]; rfl⟩

/-- Claim C2, counterexample: an inbound frame whose `type` is the
unrecognized string `"nonsense"` produces no effect at all — in
particular, no `error` frame is sent, contradicting the claim that every
unrecognized type is answered with an `error` frame. -/
theorem receive_unknown_type_silent_cex :
    receiveObj aliceU "meeting_m1" [("type", Json.str "nonsense")] = [] ∧
    Effect.sendSelf (errorFrame "invalid JSON") ∉
      receiveObj aliceU "meeting_m1" [("type", Json.str "nonsense")] := by
  constructor
  · rfl
  · intro h
    rw [show receiveObj aliceU "meeting_m1" [("type", Json.str "nonsense")] =
          ([] : List Effect) from rfl] at h
    simp at h

/-- Claim C2 (amended): a frame that fails JSON parsing is answered, on
this session only, with an `error` frame (no broadcast, no close); a frame
that parses to an object whose `type` tag is not one of `chat`,
`hand_raise`, `webrtc_signal` — including a missing or non-string tag — is
dropped silently: no effect at all (so still no broadcast and no close). -/
theorem receive_malformed_and_unknown_policy (u : User) (g : String) :
    receive u g .badJson = [.sendSelf (errorFrame "invalid JSON")] ∧
    (∀ d, (∀ t, jsonGet d "type" = some (.str t) →
        t ≠ "chat" ∧ t ≠ "hand_raise" ∧ t ≠ "webrtc_signal") →
      receive u g (.objFrame d) = []) := by
  refine ⟨rfl, fun d hd => ?_⟩
  show receiveObj u g d = []
  unfold receiveObj
  cases hT : jsonGet d "type" with
  | none => rfl
  | some v =>
      cases v with
      | str t =>
          obtain ⟨h1, h2, h3⟩ := hd t hT
          simp [h1, h2, h3]
      | null => rfl
      | bool b => rfl
      | num n => rfl
      | arr xs => rfl
      | obj fs => rfl

/-- Claim C2 witness: the amended policy at concrete inputs. -/
theorem receive_malformed_and_unknown_policy_witness :
    receive aliceU "meeting_m1" .badJson = [.sendSelf (errorFrame "invalid JSON")] ∧
    receive aliceU "meeting_m1" (.objFrame [("type", Json.str "ping")]) = [] :=
  ⟨(receive_malformed_and_unknown_policy aliceU "meeting_m1").1,
   (receive_malformed_and_unknown_policy aliceU "meeting_m1").2
     [("type", Json.str "ping")]
     (by
       intro t ht
       simp [jsonGet, List.find?] at ht
       subst ht
       refine ⟨by decide, by decide, by decide⟩)⟩

/-- Claim C9: a connection with no authenticated identity is closed with
code 4001; one with a valid identity that fails the room access check is
closed with the distinct code 4003; the two codes differ, and in both
cases the effect list contains no group join — the registry is unchanged. -/
theorem connect_rejection_codes (db : DB) (meetingId : String) (c : String)
    (G : Reg) :
    (connect db meetingId .anon).2 = [.close (some 4001)] ∧
    (∀ u : User, checkAccess db meetingId u = false →
      (connect db meetingId (.auth u)).2 = [.close (some 4003)]) ∧
    (runEffects c G (connect db meetingId .anon).2).1 = G ∧
    (∀ u : User, checkAccess db meetingId u = false →
      (runEffects c G (connect db meetingId (.auth u)).2).1 = G) ∧
    (4001 : Nat) ≠ 4003 := by
  have hanon : (connect db meetingId .anon).2 = [.close (some 4001)] := rfl
  have hauth : ∀ u : User, checkAccess db meetingId u = false →
      (connect db meetingId (.auth u)).2 = [.close (some 4003)] := by
    intro u hu
    simp [connect, hu]
  refine ⟨hanon, hauth, by rw [hanon]; rfl, fun u hu => by rw [hauth u hu]; rfl,
    by decide⟩

/-- Claim C9 witness: in an empty database the access check fails, so an
authenticated stranger is closed with 4003, and an anonymous connection
with 4001. -/
theorem connect_rejection_codes_witness :
    checkAccess (DB.mk [] []) "m1" ⟨9, "eve"⟩ = false ∧
    (connect (DB.mk [] []) "m1" (.auth ⟨9, "eve"⟩)).2 = [.close (some 4003)] ∧
    (connect (DB.mk [] []) "m1" .anon).2 = [.close (some 4001)] :=
  ⟨rfl,
   (connect_rejection_codes (DB.mk [] []) "m1" "ch" []).2.1 ⟨9, "eve"⟩ rfl,
   (connect_rejection_codes (DB.mk [] []) "m1" "ch" []).1⟩

/-- Claim C10: `connect` assigns `group_name` before the identity and
access checks, and `disconnect` only tests for its presence — so even a
session whose handshake was rejected (4001 or 4003) broadcasts
`participant_left` to the room group on disconnect: with `user_id = null`
and `username = ""` in the unauthenticated case (every current room member
receives that frame), and with the rejected user's identity in the
forbidden case. -/
theorem rejected_disconnect_broadcasts_left (db : DB) (meetingId : String)
    (c : String) (G : Reg) :
    disconnect (connect db meetingId .anon).1 =
      [.groupSend ("meeting_" ++ meetingId) (.participantLeft none ""),
       .groupDiscard ("meeting_" ++ meetingId)] ∧
    (∀ m ∈ regMembers G ("meeting_" ++ meetingId),
       (m, ClientAction.sendFrame (.obj [("type", .str "participant_left"),
            ("user_id", .null), ("username", .str "")]))
         ∈ (runEffects c G (disconnect (connect db meetingId .anon).1)).2) ∧
    (∀ u : User, checkAccess db meetingId u = false →
       disconnect (connect db meetingId (.auth u)).1 =
         [.groupSend ("meeting_" ++ meetingId)
            (.participantLeft (some u.id) u.username),
          .groupDiscard ("meeting_" ++ meetingId)]) := by
  have h1 : disconnect (connect db meetingId .anon).1 =
      [.groupSend ("meeting_" ++ meetingId) (.participantLeft none ""),
       .groupDiscard ("meeting_" ++ meetingId)] := rfl
  refine ⟨h1, ?_, ?_⟩
  · intro m hm
    rw [h1]
    simp only [runEffects, applyEffect, handleEvent, jsonOfOptInt]
    refine List.mem_append_left _ ?_
    rw [List.mem_flatMap]
    exact ⟨m, hm, by simp⟩
  · intro u hu
    simp [connect, disconnect, hu, ScopeUser.uid, ScopeUser.uname]

/-- Claim C10 witness: with the demo registry, the pre-existing member
`chA` receives the null-identity `participant_left` frame produced by a
rejected anonymous session's disconnect, and the access check rejects
user 9 whose disconnect then broadcasts their identity. -/
theorem rejected_disconnect_broadcasts_left_witness :
    ("chA", ClientAction.sendFrame (.obj [("type", .str "participant_left"),
        ("user_id", .null), ("username", .str "")]))
      ∈ (runEffects "chX" demoReg (disconnect (connect demoDB "m1" .anon).1)).2 ∧
    checkAccess demoDB "m1" ⟨9, "eve"⟩ = false ∧
    disconnect (connect demoDB "m1" (.auth ⟨9, "eve"⟩)).1 =
      [.groupSend "meeting_m1" (.participantLeft (some 9) "eve"),
       .groupDiscard "meeting_m1"] :=
  ⟨(rejected_disconnect_broadcasts_left demoDB "m1" "chX" demoReg).2.1 "chA"
     (by simp [demoReg, regMembers, List.find?]),
   rfl,
   (rejected_disconnect_broadcasts_left demoDB "m1" "chX" demoReg).2.2
     ⟨9, "eve"⟩ rfl⟩

/-- A broadcast delivering one action per member is a `map`. -/
theorem flatMap_one {α β : Type} (l : List α) (f : α → β) :
    l.flatMap (fun x => [f x]) = l.map f := by
  induction l with
  | nil => rfl
  | cons x xs ih => simp [ih]

/-- Claim C3, counterexample: Bob (channel `chB`) connects to room `m1`
where Alice (`chA`) is already present; the delivery trace of his own
`connect` call contains Bob's own `participant_joined` frame addressed to
`chB` — the newly joined connection does receive its own join
notification, because the broadcast is issued after `group_add` and the
handler does not filter self. -/
theorem participant_joined_self_echo_cex :
    ("chB", ClientAction.sendFrame (.obj [("type", .str "participant_joined"),
        ("user_id", .num 4), ("username", .str "bob")]))
      ∈ (runEffects "chB" [("meeting_m1", ["chA"]), ("user_3", ["chA"])]
          (connect demoDB "m1" (.auth bobU)).2).2 := by
  have h : (runEffects "chB" [("meeting_m1", ["chA"]), ("user_3", ["chA"])]
      (connect demoDB "m1" (.auth bobU)).2).2 =
      [("chB", .sendFrame (roomStateFrame [(3, "alice")])),
       ("chA", .sendFrame (.obj [("type", .str "participant_joined"),
          ("user_id", .num 4), ("username", .str "bob")])),
       ("chB", .sendFrame (.obj [("type", .str "participant_joined"),
          ("user_id", .num 4), ("username", .str "bob")]))] := rfl
  rw [h]
  exact List.Mem.tail _ (List.Mem.tail _ (List.Mem.head _))

/-- Claim C3 (amended): the `participant_joined` broadcast for a new
session goes to the entire room group *including* the session itself —
after a successful connect, the new channel receives its own
`participant_joined` frame, and every pre-existing member of the room
group receives it as well. -/
theorem participant_joined_includes_self (db : DB) (meetingId : String)
    (u : User) (c : String) (G : Reg)
    (h : checkAccess db meetingId u = true) :
    (c, ClientAction.sendFrame (.obj [("type", .str "participant_joined"),
        ("user_id", .num u.id), ("username", .str u.username)]))
      ∈ (runEffects c G (connect db meetingId (.auth u)).2).2 ∧
    ∀ m ∈ regMembers G ("meeting_" ++ meetingId),
      (m, ClientAction.sendFrame (.obj [("type", .str "participant_joined"),
          ("user_id", .num u.id), ("username", .str u.username)]))
        ∈ (runEffects c G (connect db meetingId (.auth u)).2).2 := by
  have hes : (connect db meetingId (.auth u)).2 =
      [.groupAdd ("meeting_" ++ meetingId),
       .groupAdd ("user_" ++ toString u.id),
       .acceptConn,
       .sendSelf (roomStateFrame (getActiveParticipants db meetingId u.id)),
       .groupSend ("meeting_" ++ meetingId)
         (.participantJoined u.id u.username)] := by
    simp [connect, h]
  rw [hes]
  simp only [runEffects, applyEffect, handleEvent, List.nil_append,
    List.append_nil, List.singleton_append]
  have hgrp : regMembers
      (regAdd (regAdd G ("meeting_" ++ meetingId) c) ("user_" ++ toString u.id) c)
      ("meeting_" ++ meetingId) =
      regMembers (regAdd G ("meeting_" ++ meetingId) c) ("meeting_" ++ meetingId) :=
    regMembers_regAdd_ne _ _ _ _
      (meeting_group_ne_user_group meetingId (toString u.id))
  constructor
  · refine List.mem_cons_of_mem _ ?_
    rw [List.mem_flatMap]
    refine ⟨c, ?_, by simp⟩
    rw [hgrp]
    exact self_mem_regAdd G _ c
  · intro m hm
    refine List.mem_cons_of_mem _ ?_
    rw [List.mem_flatMap]
    refine ⟨m, ?_, by simp⟩
    rw [hgrp]
    exact mem_regAdd_of_mem hm _ _

/-- Claim C3 witness: the amended statement at the concrete scenario —
Bob's join frame reaches both Bob himself (`chB`) and the pre-existing
member Alice (`chA`). -/
theorem participant_joined_includes_self_witness :
    checkAccess demoDB "m1" bobU = true ∧
    ("chB", ClientAction.sendFrame (.obj [("type", .str "participant_joined"),
        ("user_id", .num 4), ("username", .str "bob")]))
      ∈ (runEffects "chB" [("meeting_m1", ["chA"]), ("user_3", ["chA"])]
          (connect demoDB "m1" (.auth bobU)).2).2 ∧
    ("chA", ClientAction.sendFrame (.obj [("type", .str "participant_joined"),
        ("user_id", .num 4), ("username", .str "bob")]))
      ∈ (runEffects "chB" [("meeting_m1", ["chA"]), ("user_3", ["chA"])]
          (connect demoDB "m1" (.auth bobU)).2).2 :=
  ⟨rfl,
   (participant_joined_includes_self demoDB "m1" bobU "chB"
      [("meeting_m1", ["chA"]), ("user_3", ["chA"])] rfl).1,
   (participant_joined_includes_self demoDB "m1" bobU "chB"
      [("meeting_m1", ["chA"]), ("user_3", ["chA"])] rfl).2 "chA"
     (by simp [regMembers, List.find?])⟩

/-- Claim C4, counterexample: a `webrtc_signal` whose target identity is
the sender's own (`Bob`, id 4, sends `to: 4`) is relayed to the personal
group `user_4`, which contains the sender's own channel — so the sender's
own connection does receive an outbound frame from this call,
contradicting the unconditional "the sender's own connection receives
nothing". -/
theorem webrtc_self_target_echo_cex :
    ("chB", ClientAction.sendFrame (.obj [("type", .str "webrtc_signal"),
        ("from", .num 4), ("from_username", .str "bob"),
        ("signal", .str "S")]))
      ∈ (runEffects "chB" demoReg
          (receiveObj bobU "meeting_m1"
            [("type", .str "webrtc_signal"), ("to", .num 4),
             ("signal", .str "S")])).2 := by
  have h : (runEffects "chB" demoReg
      (receiveObj bobU "meeting_m1"
        [("type", .str "webrtc_signal"), ("to", .num 4),
         ("signal", .str "S")])).2 =
      [("chB", .sendFrame (.obj [("type", .str "webrtc_signal"),
          ("from", .num 4), ("from_username", .str "bob"),
          ("signal", .str "S")]))] := rfl
  rw [h]
  exact List.Mem.head _

/-- Claim C4 (amended): a `webrtc_signal` with a truthy target `to` value
is relayed as a single `group_send` to the personal group named by the
rendered target — it is delivered exactly to the members of that group
(so never to any session outside it, and nothing reaches the room group);
provided the rendered target differs from the sender's own identity and
the sender's channel is only in its own room and personal groups, the
sender's connection receives nothing from the call. -/
theorem webrtc_unicast (u : User) (meetingId : String)
    (d : List (String × Json)) (toVal : Json) (G : Reg) (c : String)
    (hT : jsonGet d "type" = some (.str "webrtc_signal"))
    (hTo : jsonGet d "to" = some toVal)
    (hTruthy : pyTruthy toVal = true) :
    receiveObj u ("meeting_" ++ meetingId) d =
      [.groupSend ("user_" ++ pyStr toVal)
        (.webrtcRelay u.id u.username ((jsonGet d "signal").getD .null))] ∧
    (runEffects c G (receiveObj u ("meeting_" ++ meetingId) d)).2 =
      (regMembers G ("user_" ++ pyStr toVal)).map
        (fun m => (m, ClientAction.sendFrame (.obj
          [("type", .str "webrtc_signal"), ("from", .num u.id),
           ("from_username", .str u.username),
           ("signal", (jsonGet d "signal").getD .null)]))) ∧
    (pyStr toVal ≠ toString u.id →
      (∀ g, c ∈ regMembers G g →
        g = "meeting_" ++ meetingId ∨ g = "user_" ++ toString u.id) →
      ∀ a, (c, a) ∉ (runEffects c G (receiveObj u ("meeting_" ++ meetingId) d)).2) := by
  have h1 : receiveObj u ("meeting_" ++ meetingId) d =
      [.groupSend ("user_" ++ pyStr toVal)
        (.webrtcRelay u.id u.username ((jsonGet d "signal").getD .null))] := by
    simp [receiveObj, hT, hTo, hTruthy]
  have h2 : (runEffects c G (receiveObj u ("meeting_" ++ meetingId) d)).2 =
      (regMembers G ("user_" ++ pyStr toVal)).map
        (fun m => (m, ClientAction.sendFrame (.obj
          [("type", .str "webrtc_signal"), ("from", .num u.id),
           ("from_username", .str u.username),
           ("signal", (jsonGet d "signal").getD .null)]))) := by
    rw [h1]
    simp only [runEffects, applyEffect, handleEvent, List.append_nil]
    exact flatMap_one _ _
  refine ⟨h1, h2, ?_⟩
  intro hne hgroups a ha
  rw [h2] at ha
  rw [List.mem_map] at ha
  obtain ⟨m, hm, hma⟩ := ha
  have hc : c ∈ regMembers G ("user_" ++ pyStr toVal) := by
    have : m = c := congrArg Prod.fst hma
    rwa [this] at hm
  rcases hgroups _ hc with hroom | hown
  · exact meeting_group_ne_user_group meetingId (pyStr toVal) hroom.symm
  · exact hne (user_group_inj hown.symm).symm

/-- Claim C4 witness: Bob (id 4, channel `chB`, groups `meeting_m1` and
`user_4`) sends a signal addressed `to: 3` — it is delivered exactly to
Alice's personal group (her channel `chA`), and nothing is addressed to
Bob's own channel. -/
theorem webrtc_unicast_witness :
    (runEffects "chB" demoReg
        (receiveObj bobU "meeting_m1"
          [("type", .str "webrtc_signal"), ("to", .num 3),
           ("signal", .str "X")])).2 =
      [("chA", ClientAction.sendFrame (.obj [("type", .str "webrtc_signal"),
          ("from", .num 4), ("from_username", .str "bob"),
          ("signal", .str "X")]))] ∧
    ("chB", ClientAction.sendFrame (.obj [("type", .str "webrtc_signal"),
        ("from", .num 4), ("from_username", .str "bob"),
        ("signal", .str "X")]))
      ∉ (runEffects "chB" demoReg
          (receiveObj bobU "meeting_m1"
            [("type", .str "webrtc_signal"), ("to", .num 3),
             ("signal", .str "X")])).2 := by
  have hw := webrtc_unicast bobU "m1"
    [("type", .str "webrtc_signal"), ("to", .num 3), ("signal", .str "X")]
    (.num 3) demoReg "chB" rfl rfl rfl
  constructor
  · exact hw.2.1
  · exact hw.2.2 (by decide)
      (by
        intro g hg
        obtain ⟨l, hl, hx⟩ := exists_entry_of_mem_regMembers hg
        simp [demoReg] at hl
        rcases hl with ⟨hg1, hl1⟩ | ⟨hg1, hl1⟩ | ⟨hg1, hl1⟩ <;> subst hg1 <;>
          subst hl1
        · exact Or.inl rfl
        · simp at hx
        · exact Or.inr rfl)
      _

/-- Claim C5: a session that completes the handshake first receives a
`room_state` frame and only then anything else — its per-channel delivery
trace for the whole connect is exactly `[room_state, its own
participant_joined]` — and the `participants` list of that frame contains
exactly the active participant rows of this meeting other than the user
itself. -/
theorem room_state_first_and_exact (db : DB) (meetingId : String) (u : User)
    (c : String) (G : Reg)
    (h : checkAccess db meetingId u = true)
    (hfresh : ∀ g, c ∉ regMembers G g) :
    deliveredTo c (runEffects c G (connect db meetingId (.auth u)).2).2 =
      [.sendFrame (roomStateFrame (getActiveParticipants db meetingId u.id)),
       .sendFrame (.obj [("type", .str "participant_joined"),
          ("user_id", .num u.id), ("username", .str u.username)])] ∧
    (∀ p : Int × String,
       p ∈ getActiveParticipants db meetingId u.id ↔
         ∃ row, row ∈ db.participants ∧ row.meetingId = meetingId ∧
           row.isActive = true ∧ row.userId ≠ u.id ∧
           p = (row.userId, row.username)) := by
  constructor
  · have hes : (connect db meetingId (.auth u)).2 =
        [.groupAdd ("meeting_" ++ meetingId),
         .groupAdd ("user_" ++ toString u.id),
         .acceptConn,
         .sendSelf (roomStateFrame (getActiveParticipants db meetingId u.id)),
         .groupSend ("meeting_" ++ meetingId)
           (.participantJoined u.id u.username)] := by
      simp [connect, h]
    rw [hes]
    simp only [runEffects, applyEffect, handleEvent, List.nil_append,
      List.append_nil, List.singleton_append, List.map_cons, List.map_nil]
    rw [flatMap_one]
    have hroom : regMembers
        (regAdd (regAdd G ("meeting_" ++ meetingId) c)
          ("user_" ++ toString u.id) c) ("meeting_" ++ meetingId) =
        regMembers G ("meeting_" ++ meetingId) ++ [c] := by
      rw [regMembers_regAdd_ne _ _ _ _
          (meeting_group_ne_user_group meetingId (toString u.id)),
        regMembers_regAdd_self _ _ _ (hfresh _)]
    rw [hroom, List.map_append]
    have hnil : List.filter (fun d => d.1 = c)
        ((regMembers G ("meeting_" ++ meetingId)).map
          (fun m => (m, ClientAction.sendFrame (.obj
            [("type", .str "participant_joined"), ("user_id", .num u.id),
             ("username", .str u.username)])))) = [] := by
      rw [List.filter_eq_nil_iff]
      intro a ha
      rw [List.mem_map] at ha
      obtain ⟨m, hm, rfl⟩ := ha
      simp only [decide_eq_true_eq]
      intro hmc
      exact hfresh _ (hmc ▸ hm)
    simp [deliveredTo, List.filter_append, hnil]
  · intro p
    unfold getActiveParticipants
    rw [List.mem_map]
    constructor
    · rintro ⟨row, hrow, rfl⟩
      rw [List.mem_filter] at hrow
      obtain ⟨hmem2, hcond⟩ := hrow
      simp only [Bool.and_eq_true, decide_eq_true_eq, bne_iff_ne] at hcond
      exact ⟨row, hmem2, hcond.1.1, hcond.1.2, hcond.2, rfl⟩
    · rintro ⟨row, hmem2, h1, h2, h3, rfl⟩
      refine ⟨row, ?_, rfl⟩
      rw [List.mem_filter]
      exact ⟨hmem2, by simp [h1, h2, h3]⟩

/-- Claim C5 witness: Bob joins `m1` where Alice is active — his delivery
trace is exactly `room_state` (listing Alice alone) followed by his own
join frame, and the scenario satisfies the freshness hypothesis. -/
theorem room_state_first_and_exact_witness :
    checkAccess demoDB "m1" bobU = true ∧
    deliveredTo "chB" (runEffects "chB"
        [("meeting_m1", ["chA"]), ("user_3", ["chA"])]
        (connect demoDB "m1" (.auth bobU)).2).2 =
      [.sendFrame (roomStateFrame [(3, "alice")]),
       .sendFrame (.obj [("type", .str "participant_joined"),
          ("user_id", .num 4), ("username", .str "bob")])] := by
  have hfresh : ∀ g, "chB" ∉ regMembers
      [("meeting_m1", ["chA"]), ("user_3", ["chA"])] g := by
    intro g hg
    obtain ⟨l, hl, hx⟩ := exists_entry_of_mem_regMembers hg
    simp [List.mem_cons] at hl
    rcases hl with ⟨hg1, hl1⟩ | ⟨hg1, hl1⟩ <;> subst hl1 <;> simp at hx
  exact ⟨rfl,
    (room_state_first_and_exact demoDB "m1" bobU "chB"
      [("meeting_m1", ["chA"]), ("user_3", ["chA"])] rfl hfresh).1⟩

/-- Claim C6: an inbound `chat` frame's message is stripped of surrounding
whitespace and truncated to at most 500 code points; if the result is
empty the frame is dropped silently, otherwise exactly one `chat` event is
broadcast to the room group carrying the session identity and the
truncated message, and every member of the room group is delivered a
`chat` frame whose message is that truncated result. -/
theorem chat_trim_truncate (u : User) (g : String) (d : List (String × Json))
    (raw : Json)
    (hT : jsonGet d "type" = some (.str "chat"))
    (hM : jsonGet d "message" = some raw) :
    (pySlice (pyStrip (pyStr raw)) 500).length ≤ 500 ∧
    (pySlice (pyStrip (pyStr raw)) 500 = "" → receiveObj u g d = []) ∧
    (pySlice (pyStrip (pyStr raw)) 500 ≠ "" →
      receiveObj u g d =
        [.groupSend g (.chatMessage u.id u.username
          (pySlice (pyStrip (pyStr raw)) 500))] ∧
      ∀ (G : Reg) (c : String),
        (runEffects c G (receiveObj u g d)).2 =
          (regMembers G g).map (fun m => (m, ClientAction.sendFrame (.obj
            [("type", .str "chat"), ("user_id", .num u.id),
             ("username", .str u.username),
             ("message", .str (pySlice (pyStrip (pyStr raw)) 500))])))) := by
  have hlen : (pySlice (pyStrip (pyStr raw)) 500).length ≤ 500 := by
    show ((pyStrip (pyStr raw)).data.take 500).length ≤ 500
    exact List.length_take_le _ _
  have hrecv : receiveObj u g d =
      (if pySlice (pyStrip (pyStr raw)) 500 = "" then []
       else [.groupSend g (.chatMessage u.id u.username
         (pySlice (pyStrip (pyStr raw)) 500))]) := by
    simp [receiveObj, hT, hM]
  refine ⟨hlen, fun h0 => by rw [hrecv, if_pos h0], fun hne => ?_⟩
  rw [hrecv, if_neg hne]
  refine ⟨rfl, fun G c => ?_⟩
  simp only [runEffects, applyEffect, handleEvent, List.append_nil]
  exact flatMap_one _ _

/-- Claim C6 witness: the message `"  hi  "` is stripped to `"hi"` and
broadcast as such; in the demo registry both members receive the `chat`
frame with message `"hi"`. -/
theorem chat_trim_truncate_witness :
    pySlice (pyStrip (pyStr (Json.str "  hi  "))) 500 = "hi" ∧
    receiveObj bobU "meeting_m1"
      [("type", .str "chat"), ("message", .str "  hi  ")] =
      [.groupSend "meeting_m1" (.chatMessage 4 "bob" "hi")] ∧
    (runEffects "chX" demoReg (receiveObj bobU "meeting_m1"
        [("type", .str "chat"), ("message", .str "  hi  ")])).2 =
      [("chA", ClientAction.sendFrame (.obj
          [("type", .str "chat"), ("user_id", .num 4),
           ("username", .str "bob"), ("message", .str "hi")])),
       ("chB", ClientAction.sendFrame (.obj
          [("type", .str "chat"), ("user_id", .num 4),
           ("username", .str "bob"), ("message", .str "hi")]))] := by
  have hc := chat_trim_truncate bobU "meeting_m1"
    [("type", .str "chat"), ("message", .str "  hi  ")]
    (Json.str "  hi  ") rfl rfl
  refine ⟨rfl, (hc.2.2 (by decide)).1, ?_⟩
  exact (hc.2.2 (by decide)).2 demoReg "chX"

/-- Claim C7: `disconnect` is a total teardown — whatever state the
session is in (user group attribute set or not), after running its
disconnect effects the channel is registered in no group at all, provided
it was only registered where the session had joined (its room group and,
when set, its personal group). -/
theorem disconnect_removes_all_memberships (s : Session) (c : String)
    (G : Reg)
    (hWF : ∀ p ∈ G, p.2.Nodup)
    (hmem : ∀ g, c ∈ regMembers G g → g = s.groupName ∨ s.userGroup = some g) :
    ∀ g, c ∉ regMembers (runEffects c G (disconnect s)).1 g := by
  intro g
  cases hug : s.userGroup with
  | none =>
      have hreg : (runEffects c G (disconnect s)).1 = regDiscard G s.groupName c := by
        simp [disconnect, hug, runEffects, applyEffect]
      rw [hreg, regMembers_regDiscard]
      by_cases hg : g = s.groupName
      · rw [if_pos hg]
        intro hc
        exact ((List.Nodup.mem_erase_iff (nodup_regMembers hWF g)).mp hc).1 rfl
      · rw [if_neg hg]
        intro hc
        rcases hmem g hc with h1 | h1
        · exact hg h1
        · rw [hug] at h1
          cases h1
  | some ug =>
      have hreg : (runEffects c G (disconnect s)).1 =
          regDiscard (regDiscard G s.groupName c) ug c := by
        simp [disconnect, hug, runEffects, applyEffect]
      rw [hreg, regMembers_regDiscard, regMembers_regDiscard]
      by_cases hg1 : g = ug
      · rw [if_pos hg1]
        intro hc
        have hnd : (if g = s.groupName then (regMembers G g).erase c
            else regMembers G g).Nodup := by
          split
          · exact List.Nodup.erase _ (nodup_regMembers hWF g)
          · exact nodup_regMembers hWF g
        exact ((List.Nodup.mem_erase_iff hnd).mp hc).1 rfl
      · rw [if_neg hg1]
        by_cases hg2 : g = s.groupName
        · rw [if_pos hg2]
          intro hc
          exact ((List.Nodup.mem_erase_iff (nodup_regMembers hWF g)).mp hc).1 rfl
        · rw [if_neg hg2]
          intro hc
          rcases hmem g hc with h1 | h1
          · exact hg2 h1
          · rw [hug] at h1
            exact hg1 (Option.some.inj h1).symm

/-- Claim C7 witness: Bob's fully connected session (channel `chB`, in
`meeting_m1` and `user_4`) disconnects from the demo registry; afterwards
`chB` is in neither group. -/
theorem disconnect_removes_all_memberships_witness :
    "chB" ∉ regMembers (runEffects "chB" demoReg
        (disconnect (connect demoDB "m1" (.auth bobU)).1)).1 "meeting_m1" ∧
    "chB" ∉ regMembers (runEffects "chB" demoReg
        (disconnect (connect demoDB "m1" (.auth bobU)).1)).1 "user_4" := by
  have h := disconnect_removes_all_memberships
    (connect demoDB "m1" (.auth bobU)).1 "chB" demoReg
    (by decide)
    (by
      intro g hg
      obtain ⟨l, hl, hx⟩ := exists_entry_of_mem_regMembers hg
      simp [demoReg] at hl
      rcases hl with ⟨hg1, hl1⟩ | ⟨hg1, hl1⟩ | ⟨hg1, hl1⟩ <;> subst hg1 <;>
        subst hl1
      · exact Or.inl rfl
      · simp at hx
      · exact Or.inr rfl)
  exact ⟨h "meeting_m1", h "user_4"⟩

/-- The server-attached sender identity of an outbound event, where one
exists (`chat`, `hand_raise`, `webrtc_signal` relays and join frames carry
one). -/
def eventSender : Event → Option (Int × String)
  | .participantJoined uid un => some (uid, un)
  | .chatMessage uid un _ => some (uid, un)
  | .handRaise uid un _ => some (uid, un)
  | .webrtcRelay uid un _ => some (uid, un)
  | _ => none

/-- Claim C8: dispatch reads only the keys `type`, `message`, `raised`,
`to` and `signal` of an inbound frame — two frames agreeing on those keys
(e.g. differing only in a client-supplied `user_id` or `username` field)
produce identical effect lists — and every event it broadcasts carries the
session's own identity as sender. -/
theorem sender_identity_from_session (u : User) (g : String)
    (d1 d2 : List (String × Json))
    (hT : jsonGet d1 "type" = jsonGet d2 "type")
    (hM : jsonGet d1 "message" = jsonGet d2 "message")
    (hR : jsonGet d1 "raised" = jsonGet d2 "raised")
    (hTo : jsonGet d1 "to" = jsonGet d2 "to")
    (hS : jsonGet d1 "signal" = jsonGet d2 "signal") :
    receiveObj u g d1 = receiveObj u g d2 ∧
    (∀ g' ev, Effect.groupSend g' ev ∈ receiveObj u g d1 →
      eventSender ev = some (u.id, u.username)) := by
  constructor
  · unfold receiveObj
    rw [hT, hM, hR, hTo, hS]
  · intro g' ev hmem
    rcases hv : jsonGet d1 "type" with _ | v
    · simp [receiveObj, hv] at hmem
    · cases v with
      | str t =>
          simp only [receiveObj, hv] at hmem
          by_cases h1 : t = "chat"
          · rw [if_pos h1] at hmem
            split at hmem
            · simp at hmem
            · simp at hmem
              obtain ⟨hg', hev⟩ := hmem
              subst hev
              rfl
          · rw [if_neg h1] at hmem
            by_cases h2 : t = "hand_raise"
            · rw [if_pos h2] at hmem
              simp at hmem
              obtain ⟨hg', hev⟩ := hmem
              subst hev
              rfl
            · rw [if_neg h2] at hmem
              by_cases h3 : t = "webrtc_signal"
              · rw [if_pos h3] at hmem
                rcases hto : jsonGet d1 "to" with _ | toVal
                · rw [hto] at hmem
                  simp at hmem
                · rw [hto] at hmem
                  split at hmem
                  · simp at hmem
                  · simp at hmem
                    obtain ⟨htr, hg2, hev⟩ := hmem
                    subst hev
                    rfl
              · rw [if_neg h3] at hmem
                simp at hmem
      | null => simp [receiveObj, hv] at hmem
      | bool b => simp [receiveObj, hv] at hmem
      | num n => simp [receiveObj, hv] at hmem
      | arr xs => simp [receiveObj, hv] at hmem
      | obj fs => simp [receiveObj, hv] at hmem

/-- Claim C8 witness: a chat frame smuggling `user_id: 99` and
`username: "mallory"` produces exactly the same effects as the clean
frame, and the broadcast event's sender is the session's own identity. -/
theorem sender_identity_from_session_witness :
    receiveObj bobU "meeting_m1"
      [("type", .str "chat"), ("message", .str "hi"),
       ("user_id", .num 99), ("username", .str "mallory")] =
    receiveObj bobU "meeting_m1"
      [("type", .str "chat"), ("message", .str "hi")] ∧
    eventSender (.chatMessage 4 "bob" "hi") = some (4, "bob") := by
  have h := sender_identity_from_session bobU "meeting_m1"
    [("type", .str "chat"), ("message", .str "hi"),
     ("user_id", .num 99), ("username", .str "mallory")]
    [("type", .str "chat"), ("message", .str "hi")]
    rfl rfl rfl rfl rfl
  refine ⟨h.1, ?_⟩
  refine h.2 "meeting_m1" (.chatMessage 4 "bob" "hi") ?_
  have hr : receiveObj bobU "meeting_m1"
      [("type", .str "chat"), ("message", .str "hi"),
       ("user_id", .num 99), ("username", .str "mallory")] =
      [.groupSend "meeting_m1" (.chatMessage 4 "bob" "hi")] := rfl
  rw [hr]
  exact List.Mem.head _

end MeetingRelay
